import Mathlib

/-!
Verification of the mlpack feedforward-network container and the
MeanNormalization feature scaler against their natural-language
specification.

The `MeanNormalization` definitions are translated directly from
`src/mlpack/core/data/scaler_methods/mean_normalization.hpp`.
Matrices follow armadillo's convention in that file: each *row* is a
feature, each *column* a sample; we embed a matrix as a list of feature
rows, each row the list of that feature's sample values.  Real-valued
entries are embedded as rationals.
-/

namespace MlpackSpec

/-- A data matrix: list of feature rows (armadillo rows), each a list of
sample values (armadillo columns). -/
abbrev Mat := List (List ℚ)

/-- `arma::mean(input, 1)` applied to one row: the mean of its entries
(zero for an empty row, a degenerate case no claim touches). -/
def rowMean (r : List ℚ) : ℚ := r.sum / r.length

/-- `arma::min(input, 1)` applied to one row. -/
def rowMin : List ℚ → ℚ
  | [] => 0
  | x :: xs => xs.foldl min x

/-- `arma::max(input, 1)` applied to one row. -/
def rowMax : List ℚ → ℚ
  | [] => 0
  | x :: xs => xs.foldl max x

/-- The four `arma::vec` members of `class MeanNormalization`; a freshly
constructed object has every vector empty (0-element `arma::vec`). -/
structure MeanNormalization where
  itemMean : List ℚ
  itemMin : List ℚ
  itemMax : List ℚ
  scale : List ℚ
deriving DecidableEq, Repr

/-- The state of a default-constructed `MeanNormalization` object. -/
def MeanNormalization.fresh : MeanNormalization := ⟨[], [], [], []⟩

/-- `MeanNormalization::Fit`: per-feature mean, min, max;
`scale = itemMax - itemMin` with zero entries replaced by `1`
(the `for_each` lambda in the source). -/
def MeanNormalization.fit (input : Mat) : MeanNormalization :=
  let m := input.map rowMean
  let mn := input.map rowMin
  let mx := input.map rowMax
  let sc := (List.zipWith (fun a b => a - b) mx mn).map
      (fun v => if v = 0 then 1 else v)
  ⟨m, mn, mx, sc⟩

/-- The exact message of the `std::runtime_error` thrown by `Transform`. -/
def fitFirstMsg : String :=
  "Call Fit() before Transform(), please refer documentation."

/-- `MeanNormalization::Transform`: throws when `itemMean` or `scale` is
empty, otherwise `output = (input.each_col() - itemMean).each_col() / scale`;
entry `(i, j)` becomes `(input i j - itemMean i) / scale i`. -/
def MeanNormalization.transform (st : MeanNormalization) (input : Mat) :
    Except String Mat :=
  if st.itemMean = [] ∨ st.scale = [] then
    .error fitFirstMsg
  else
    .ok ((input.zip (st.itemMean.zip st.scale)).map
      (fun p => p.1.map (fun v => (v - p.2.1) / p.2.2)))

/-- `MeanNormalization::InverseTransform`:
`output = (input.each_col() % scale).each_col() + itemMean`, with no
precondition check of any kind. -/
def MeanNormalization.inverseTransform (st : MeanNormalization)
    (input : Mat) : Mat :=
  (input.zip (st.itemMean.zip st.scale)).map
    (fun p => p.1.map (fun v => v * p.2.2 + p.2.1))

/-!
### The feedforward network pipeline

The `FFN` class itself (`mlpack/methods/ann/ffn.hpp` and the layer
classes it composes) is not part of this repository snapshot; only its
test suite `src/mlpack/tests/feedforward_network_test.cpp` is present.
The pipeline, parameter aggregator, training driver and lifecycle
manager below are therefore modelled from the specification, and the
concrete scenarios mirror the test file.

An activation family `Φ : ℕ → ℚ → ℚ` stands for the externally supplied
point-wise activation functions (layer math is outside the spec's
scope); an activation layer stores only an index into this family.
Matrices handed to the network are embedded as lists of *columns*
(samples), each column listing the feature values of one sample, so the
leading dimension (number of rows) of a matrix is the length of its
columns.
-/

/-- A network-side data matrix: a list of sample columns. -/
abbrev ColMat := List (List ℚ)

/-- Leading dimension (row count) of a network matrix. -/
def nRows (x : ColMat) : ℕ := (x.head?.map List.length).getD 0

/-- Modelled from the spec: the polymorphic layer kinds the verified
scenarios need (`Linear`, `LinearNoBias`, the constant-adding `Add<>`
module, and a stateless activation layer identified by an index into
the external activation family).  The concrete C++ layer classes are
not in this snapshot. -/
inductive Layer where
  | linear (inSize outSize : ℕ)
  | linearNoBias (inSize outSize : ℕ)
  | add (outSize : ℕ)
  | activation (idx : ℕ)
deriving DecidableEq, Repr

/-- Modelled from the spec: `ParameterBlockSize()` of each layer kind; a
`Linear` layer with `i` inputs and `o` outputs owns `i*o` weights plus
`o` biases, a stateless activation layer owns nothing. -/
def Layer.blockSize : Layer → ℕ
  | .linear i o => i * o + o
  | .linearNoBias i o => i * o
  | .add n => n
  | .activation _ => 0

/-- Modelled from the spec: the input width the layer declares, `none`
for layers (such as stateless activations) that declare no width. -/
def Layer.inputWidth : Layer → Option ℕ
  | .linear i _ => some i
  | .linearNoBias i _ => some i
  | .add n => some n
  | .activation _ => none

/-- Dot product of two equally long vectors. -/
def dotProd (a b : List ℚ) : ℚ := (List.zipWith (fun u v => u * v) a b).sum

/-- `o × i` weight matrix stored column-major in `flat` (armadillo's
layout) applied to a column: entry `r` is `Σ_c flat[c*o+r] * col[c]`. -/
def matVecFlat (o i : ℕ) (flat col : List ℚ) : List ℚ :=
  (List.range o).map (fun r =>
    ((List.range i).map (fun c => flat.getD (c * o + r) 0 * col.getD c 0)).sum)

/-- Modelled from the spec: each layer's `Forward`, applied column by
column, reading the layer's learnable parameters from the flat block
`p` handed to it by the parameter aggregator. -/
def Layer.forward (Φ : ℕ → ℚ → ℚ) : Layer → List ℚ → ColMat → ColMat
  | .linear i o, p, x =>
      x.map (fun col => List.zipWith (fun u v => u + v)
        (matVecFlat o i (p.take (i * o)) col) ((p.drop (i * o)).take o))
  | .linearNoBias i o, p, x =>
      x.map (fun col => matVecFlat o i p col)
  | .add _, p, x =>
      x.map (fun col => List.zipWith (fun u v => u + v) col p)
  | .activation idx, _, x =>
      x.map (List.map (Φ idx))

/-- Modelled from the spec: the network pipeline — an ordered layer
sequence plus the single flat Parameter Vector backing every layer's
parameters. -/
structure FFN where
  layers : List Layer
  params : List ℚ
deriving DecidableEq, Repr

/-- Total parameter length: `Σ layer.ParameterBlockSize()` in pipeline
order. -/
def networkSize (layers : List Layer) : ℕ := (layers.map Layer.blockSize).sum

/-- Offset of layer `k`'s parameter block inside the Parameter Vector:
the sum of the block sizes of the layers before it. -/
def layerOffset : List Layer → ℕ → ℕ
  | _, 0 => 0
  | [], _ + 1 => 0
  | l :: ls, k + 1 => l.blockSize + layerOffset ls k

/-- Block size of layer `k` (zero when `k` is out of range). -/
def blockSizeAt (layers : List Layer) (k : ℕ) : ℕ :=
  ((layers.get? k).map Layer.blockSize).getD 0

/-- A bounds-checked slice of the Parameter Vector: `sz` entries
starting at `off`. -/
def slice (l : List ℚ) (off sz : ℕ) : List ℚ := (l.drop off).take sz

/-- Overwrite the `sz` entries starting at `off` with `v`. -/
def splice (l : List ℚ) (off sz : ℕ) (v : List ℚ) : List ℚ :=
  l.take off ++ v ++ l.drop (off + sz)

/-- Modelled from the spec: layer `k`'s non-owning parameter view — the
sub-range of the Parameter Vector the aggregator binds to it. -/
def layerView (net : FFN) (k : ℕ) : List ℚ :=
  slice net.params (layerOffset net.layers k) (blockSizeAt net.layers k)

/-- Modelled from the spec: mutating layer `k`'s parameter view writes
through to its sub-range of the Parameter Vector. -/
def writeLayerView (net : FFN) (k : ℕ) (v : List ℚ) : FFN :=
  { net with
      params := splice net.params (layerOffset net.layers k)
        (blockSizeAt net.layers k) v }

/-- Set every entry of the Parameter Vector to `c`
(e.g. `model.Parameters().ones()`). -/
def setAllParams (net : FFN) (c : ℚ) : FFN :=
  { net with params := List.replicate net.params.length c }

/-- Modelled from the spec: `ResetParameters()` — allocate a Parameter
Vector of the summed block length and let each layer initialise its
view; `init` stands for the externally chosen initialisation scheme
(value at each index). -/
def resetParameters (init : ℕ → ℚ) (net : FFN) : FFN :=
  { net with params := (List.range (networkSize net.layers)).map init }

/-- Modelled from the spec: ranged `Forward(input, output, startLayer,
endLayer)` — zero-based indices, inclusive on both ends, each visited
layer reading its bound parameter view. -/
def forwardRange (Φ : ℕ → ℚ → ℚ) (net : FFN) (s e : ℕ) (x : ColMat) :
    ColMat :=
  ((List.range (e + 1 - s)).map (fun k => s + k)).foldl
    (fun acc k =>
      match net.layers.get? k with
      | some l => l.forward Φ (layerView net k) acc
      | none => acc) x

/-- Modelled from the spec: the full `Forward` pass, layer `0` through
the last layer. -/
def forwardFull (Φ : ℕ → ℚ → ℚ) (net : FFN) (x : ColMat) : ColMat :=
  forwardRange Φ net 0 (net.layers.length - 1) x

/-- Modelled from the spec: `Predict` — a full forward pass with no
gradient bookkeeping. -/
def predict (Φ : ℕ → ℚ → ℚ) (net : FFN) (x : ColMat) : ColMat :=
  forwardFull Φ net x

/-- The input width declared by the first layer of the pipeline. -/
def firstWidth (net : FFN) : Option ℕ := net.layers.head?.bind Layer.inputWidth

/-- The shape diagnostic `Train` raises when the input's leading
dimension disagrees with the first layer's declared width. -/
structure ShapeError where
  expected : ℕ
  actual : ℕ
deriving DecidableEq, Repr

/-- The diagnostic message, as the test suite expects it verbatim. -/
def ShapeError.message (e : ShapeError) : String :=
  "FFN<>::Train(): the first layer of the network expects "
    ++ toString e.expected ++ " elements, but the input has "
    ++ toString e.actual ++ " dimensions! "

/-- `seg` occurs contiguously inside `msg`. -/
def containsSeg (msg seg : String) : Prop :=
  ∃ a b, msg.data = a ++ seg.data ++ b

/-- Modelled from the spec: the loss ("output layer") policy — a
pluggable map from (predictions, targets) to a scalar objective. -/
def LossPolicy := ColMat → ColMat → ℚ

/-- A concrete loss policy for the scenarios: sum of squared errors. -/
def sumSqLoss : LossPolicy := fun pred target =>
  (List.zipWith
    (fun c d => dotProd (List.zipWith (fun u v => u - v) c d)
      (List.zipWith (fun u v => u - v) c d)) pred target).sum

/-- Modelled from the spec: the external optimizer — given the
objective function over parameter vectors and the initial parameters it
returns the final parameters together with the last objective value it
observed. -/
def Optimizer := (List ℚ → ℚ) → List ℚ → List ℚ × ℚ

/-- An optimizer for the scenarios: evaluates the objective once at the
initial parameters and reports it. -/
def evalOnceOpt : Optimizer := fun f p => (p, f p)

/-- Modelled from the spec: the objective the training driver exposes
to the optimizer — the loss of the network, re-evaluated at whatever
parameter vector the optimizer supplies. -/
def networkObjective (Φ : ℕ → ℚ → ℚ) (lossP : LossPolicy) (net : FFN)
    (x y : ColMat) (p : List ℚ) : ℚ :=
  lossP (forwardFull Φ { net with params := p } x) y

/-- Modelled from the spec: `Train(predictors, responses, optimizer)` —
eagerly checks the input's leading dimension against the first layer's
declared width before handing control to the optimizer (raising a
`ShapeError` carrying both dimensions), triggers `ResetParameters` when
parameters are unallocated, then returns the optimizer's final
parameters and last observed objective value as-is. -/
def train (Φ : ℕ → ℚ → ℚ) (lossP : LossPolicy) (init : ℕ → ℚ)
    (net : FFN) (x y : ColMat) (opt : Optimizer) :
    Except ShapeError (List ℚ × ℚ) :=
  match firstWidth net with
  | some w =>
      if nRows x = w then
        let net' := if net.params.length = networkSize net.layers then net
          else resetParameters init net
        Except.ok (opt (networkObjective Φ lossP net' x y) net'.params)
      else Except.error ⟨w, nRows x⟩
  | none =>
      let net' := if net.params.length = networkSize net.layers then net
        else resetParameters init net
      Except.ok (opt (networkObjective Φ lossP net' x y) net'.params)

/-!
### Serialization

Modelled from the spec: the archive is "an ordered list of typed
records plus one flat numeric vector"; each layer is persisted as a
tagged record and reconstructed from its tag, and deserializing into a
non-empty pipeline discards the target's previous contents entirely.
-/

/-- The tagged record persisted for one layer. -/
def encodeLayer : Layer → List ℕ
  | .linear i o => [0, i, o]
  | .linearNoBias i o => [1, i, o]
  | .add n => [2, n]
  | .activation k => [3, k]

/-- Reconstruct a layer from its tagged record. -/
def decodeLayer : List ℕ → Option Layer
  | [0, i, o] => some (.linear i o)
  | [1, i, o] => some (.linearNoBias i o)
  | [2, n] => some (.add n)
  | [3, k] => some (.activation k)
  | _ => none

/-- The serialization medium: ordered layer records plus the flat
Parameter Vector. -/
structure SerialArchive where
  records : List (List ℕ)
  params : List ℚ
deriving DecidableEq, Repr

/-- Modelled from the spec: serialize the ordered layer sequence and
the Parameter Vector. -/
def serializeFFN (net : FFN) : SerialArchive :=
  ⟨net.layers.map encodeLayer, net.params⟩

/-- Reconstruct the ordered layer sequence from the archived records;
fails when a record carries an unknown tag. -/
def decodeLayers : List (List ℕ) → Option (List Layer)
  | [] => some []
  | r :: rs =>
    match decodeLayer r, decodeLayers rs with
    | some l, some ls => some (l :: ls)
    | _, _ => none

/-- Modelled from the spec: deserialization reconstructs every layer by
tag and installs the archived Parameter Vector, discarding whatever the
target pipeline previously contained. -/
def deserializeFFN (ar : SerialArchive) (_target : FFN) : Option FFN :=
  (decodeLayers ar.records).map (fun ls => ⟨ls, ar.params⟩)

/-!
### Storage model for copy / move lifecycle

Modelled from the spec: to express "copies must never alias the
source's Parameter Vector" and "move transfers ownership", parameter
storage lives in an explicit store of arenas addressed by identifiers;
a pipeline object holds its layer list and the identifier of the arena
backing its Parameter Vector (none once moved-from).
-/

/-- Look an arena up by identifier. -/
def arenaLookup (i : ℕ) : List (ℕ × List ℚ) → Option (List ℚ)
  | [] => none
  | p :: ps => if p.1 = i then some p.2 else arenaLookup i ps

/-- Replace the contents of arena `i`. -/
def arenaUpdate (i : ℕ) (v : List ℚ) :
    List (ℕ × List ℚ) → List (ℕ × List ℚ)
  | [] => []
  | p :: ps => if p.1 = i then (i, v) :: arenaUpdate i v ps
      else p :: arenaUpdate i v ps

/-- Remove arena `i`. -/
def arenaErase (i : ℕ) : List (ℕ × List ℚ) → List (ℕ × List ℚ)
  | [] => []
  | p :: ps => if p.1 = i then arenaErase i ps else p :: arenaErase i ps

/-- The parameter-storage heap: arenas by identifier plus the next
fresh identifier. -/
structure Store where
  arenas : List (ℕ × List ℚ)
  next : ℕ

/-- Every allocated identifier is below `next` (so `next` is fresh). -/
def Store.wf (st : Store) : Prop := ∀ p ∈ st.arenas, p.1 < st.next

/-- A pipeline object under the storage model: its layers and the
identifier of the arena owning its Parameter Vector. -/
structure FFNRef where
  layers : List Layer
  arena : Option ℕ

/-- `Predict` under the storage model: reads the Parameter Vector out
of the owned arena; unusable (no result) without one. -/
def predictRef (Φ : ℕ → ℚ → ℚ) (st : Store) (net : FFNRef) (x : ColMat) :
    Option ColMat :=
  (net.arena.bind (fun a => arenaLookup a st.arenas)).map
    (fun p => forwardFull Φ ⟨net.layers, p⟩ x)

/-- Modelled from the spec: copy construction/assignment — deep-clones
the layers and copies the Parameter Vector into a freshly allocated
arena, never aliasing the source's arena. -/
def copyFFN (st : Store) (net : FFNRef) : Store × FFNRef :=
  match net.arena.bind (fun a => arenaLookup a st.arenas) with
  | some v =>
      (⟨(st.next, v) :: st.arenas, st.next + 1⟩, ⟨net.layers, some st.next⟩)
  | none => (st, ⟨net.layers, none⟩)

/-- Modelled from the spec: move construction/assignment — transfers
the layer sequence and Parameter Vector ownership without cloning,
leaving the moved-from pipeline empty. -/
def moveFFN (net : FFNRef) : FFNRef × FFNRef :=
  (⟨net.layers, net.arena⟩, ⟨[], none⟩)

/-- Destroy a pipeline object: frees the arena it owns, if any. -/
def destroyFFN (st : Store) (net : FFNRef) : Store :=
  match net.arena with
  | some a => ⟨arenaErase a st.arenas, st.next⟩
  | none => st

/-- Overwrite a pipeline's Parameter Vector in place. -/
def writeParamsRef (st : Store) (net : FFNRef) (v : List ℚ) : Store :=
  match net.arena with
  | some a => ⟨arenaUpdate a v st.arenas, st.next⟩
  | none => st

/-- The identity activation family used by the concrete scenarios
(no scenario sends data through an activation layer). -/
def idActivation : ℕ → ℚ → ℚ := fun _ v => v

/-- The four-layer pipeline of the `PartialForwardTest` scenario:
`Linear(5,10)`, `Add(10)`, `LinearNoBias(10,10)`, `Linear(10,10)`,
parameters reset and the `Add` and `LinearNoBias` views then set to
all-ones, as in the test. -/
def rangedNet : FFN :=
  writeLayerView
    (writeLayerView
      (resetParameters (fun _ => 0)
        ⟨[Layer.linear 5 10, Layer.add 10, Layer.linearNoBias 10 10,
          Layer.linear 10 10], []⟩)
      1 (List.replicate 10 1))
    2 (List.replicate 100 1)

/-!
## Theorems

First the supporting lemmas, then one theorem per claim.
-/

lemma getD_of_lt {α : Type} (l : List α) (i : ℕ) (d : α) (h : i < l.length) :
    l.getD i d = l[i] := by
  simp [List.getD_eq_getElem?_getD, List.getElem?_eq_getElem h]

lemma rowMax_replicate (k : ℕ) (c : ℚ) (hk : 0 < k) :
    rowMax (List.replicate k c) = c := by
  obtain ⟨m, rfl⟩ : ∃ m, k = m + 1 := ⟨k - 1, (Nat.succ_pred_eq_of_pos hk).symm⟩
  show (List.replicate m c).foldl max c = c
  induction m with
  | zero => rfl
  | succ n ih => simpa [List.replicate_succ, max_self] using ih

lemma rowMin_replicate (k : ℕ) (c : ℚ) (hk : 0 < k) :
    rowMin (List.replicate k c) = c := by
  obtain ⟨m, rfl⟩ : ∃ m, k = m + 1 := ⟨k - 1, (Nat.succ_pred_eq_of_pos hk).symm⟩
  show (List.replicate m c).foldl min c = c
  induction m with
  | zero => rfl
  | succ n ih => simpa [List.replicate_succ, min_self] using ih

lemma rowMean_replicate (k : ℕ) (c : ℚ) (hk : 0 < k) :
    rowMean (List.replicate k c) = c := by
  have hk' : (k : ℚ) ≠ 0 := Nat.cast_ne_zero.mpr hk.ne'
  simp only [rowMean, List.sum_replicate, List.length_replicate, nsmul_eq_mul]
  exact mul_div_cancel_left₀ c hk'

lemma fit_scale_length (input : Mat) :
    (MeanNormalization.fit input).scale.length = input.length := by
  simp [MeanNormalization.fit]

lemma fit_mean_length (input : Mat) :
    (MeanNormalization.fit input).itemMean.length = input.length := by
  simp [MeanNormalization.fit]

lemma fit_scale_getElem (input : Mat) (i : ℕ) (h : i < input.length) :
    haveI h' : i < (MeanNormalization.fit input).scale.length := by
      simpa [fit_scale_length] using h
    (MeanNormalization.fit input).scale[i] =
      (if rowMax input[i] - rowMin input[i] = 0 then 1
       else rowMax input[i] - rowMin input[i]) := by
  simp [MeanNormalization.fit]

lemma fit_mean_getElem (input : Mat) (i : ℕ) (h : i < input.length) :
    haveI h' : i < (MeanNormalization.fit input).itemMean.length := by
      simpa [fit_mean_length] using h
    (MeanNormalization.fit input).itemMean[i] = rowMean input[i] := by
  simp [MeanNormalization.fit]

/-- C9 counterexample: `Fit` *has* been called — on a matrix with zero
rows, as arises after shedding every row — yet `Transform` still throws,
because the stored mean and scale vectors are empty.  This refutes
"Transform throws if and only if Fit has never been called; after any
Fit, Transform never throws" as stated. -/
theorem c9_counterexample :
    MeanNormalization.transform (MeanNormalization.fit []) [[(1 : ℚ)]] =
      Except.error fitFirstMsg := rfl

/-- C9 (amended): `Transform` throws exactly when the stored mean or
scale vector is empty — which is the case before any `Fit` and also
after a `Fit` on a zero-row matrix; after a `Fit` on a matrix with at
least one feature row `Transform` never throws; `InverseTransform`
performs no such precondition check (on the pristine state it silently
returns its zip-with-nothing result instead of throwing). -/
theorem c9_transform_guard (st : MeanNormalization) (input fitted : Mat)
    (hne : fitted ≠ []) :
    ((∃ e, st.transform input = Except.error e) ↔
      (st.itemMean = [] ∨ st.scale = []))
    ∧ (∃ out, (MeanNormalization.fit fitted).transform input = Except.ok out)
    ∧ MeanNormalization.fresh.inverseTransform input = [] := by
  refine ⟨?_, ?_, ?_⟩
  · unfold MeanNormalization.transform
    split
    · next hcond => exact ⟨fun _ => hcond, fun _ => ⟨_, rfl⟩⟩
    · next hcond =>
        exact ⟨fun ⟨e, he⟩ => by simp at he, fun hc => absurd hc hcond⟩
  · unfold MeanNormalization.transform
    rw [if_neg]
    · exact ⟨_, rfl⟩
    · push_neg
      constructor
      · simpa [MeanNormalization.fit] using hne
      · have := fit_scale_length fitted
        intro hsc
        rw [hsc] at this
        exact hne (List.length_eq_zero.mp this.symm)
  · simp [MeanNormalization.inverseTransform, MeanNormalization.fresh]

/-- Witness for C9: instantiates the guard theorem on the pristine
scaler, a 1×1 input and the fitted matrix `[[5]]`. -/
theorem c9_witness :
    ((∃ e, MeanNormalization.fresh.transform [[(1 : ℚ)]] = Except.error e) ↔
      (MeanNormalization.fresh.itemMean = [] ∨
        MeanNormalization.fresh.scale = []))
    ∧ (∃ out, (MeanNormalization.fit [[(5 : ℚ)]]).transform [[(1 : ℚ)]] =
        Except.ok out)
    ∧ MeanNormalization.fresh.inverseTransform [[(1 : ℚ)]] = [] :=
  c9_transform_guard MeanNormalization.fresh [[(1 : ℚ)]] [[(5 : ℚ)]] (by simp)

/-- C10: after every `Fit`, each scale entry is non-zero: it equals
`max - min` of its feature unless that difference is zero, in which
case it is `1`; consequently `Transform` never divides by zero, and a
constant feature row transforms to exactly zero everywhere. -/
theorem c10_scale_nonzero (input : Mat) (i : ℕ) (h : i < input.length) :
    (MeanNormalization.fit input).scale.getD i 0 ≠ 0
    ∧ (MeanNormalization.fit input).scale.getD i 0 =
        (if rowMax (input.getD i []) - rowMin (input.getD i []) = 0 then 1
         else rowMax (input.getD i []) - rowMin (input.getD i []))
    ∧ ∀ (k : ℕ) (c : ℚ), 0 < k → input.getD i [] = List.replicate k c →
        ∃ out, (MeanNormalization.fit input).transform input =
            Except.ok out ∧
          out.getD i [] = List.replicate k 0 := by
  have hs : i < (MeanNormalization.fit input).scale.length := by
    simpa [fit_scale_length] using h
  have hm : i < (MeanNormalization.fit input).itemMean.length := by
    simpa [fit_mean_length] using h
  have hin : input.getD i [] = input[i] := getD_of_lt input i [] h
  have hval : (MeanNormalization.fit input).scale.getD i 0 =
      (if rowMax input[i] - rowMin input[i] = 0 then 1
       else rowMax input[i] - rowMin input[i]) := by
    rw [getD_of_lt _ _ _ hs]
    exact fit_scale_getElem input i h
  refine ⟨?_, ?_, ?_⟩
  · rw [hval]
    split
    · exact one_ne_zero
    · next hd => exact hd
  · rw [hval, hin]
  · intro k c hk hrow
    rw [hin] at hrow
    have hmean : (MeanNormalization.fit input).itemMean[i] = c := by
      rw [fit_mean_getElem input i h, hrow, rowMean_replicate k c hk]
    have hscale : (MeanNormalization.fit input).scale[i] = 1 := by
      rw [fit_scale_getElem input i h, hrow,
        rowMax_replicate k c hk, rowMin_replicate k c hk]
      simp
    have hmem : (MeanNormalization.fit input).itemMean ≠ [] := by
      intro h0
      rw [h0] at hm
      simp at hm
    have hsc : (MeanNormalization.fit input).scale ≠ [] := by
      intro h0
      rw [h0] at hs
      simp at hs
    refine ⟨_, by
      rw [MeanNormalization.transform, if_neg (by push_neg; exact ⟨hmem, hsc⟩)],
      ?_⟩
    have hzlen : i < ((input.zip ((MeanNormalization.fit input).itemMean.zip
        (MeanNormalization.fit input).scale)).map
        (fun p => p.1.map (fun v => (v - p.2.1) / p.2.2))).length := by
      simp only [List.length_map, List.length_zip]
      omega
    rw [getD_of_lt _ _ _ hzlen]
    rw [List.getElem_map]
    rw [List.getElem_zip, List.getElem_zip]
    simp only [hrow, hmean, hscale, List.map_replicate]
    simp

/-- Witness for C10: the second feature of `[[1, 3], [2, 2]]` is the
constant row `[2, 2]`; its scale entry is non-zero and it transforms to
`[0, 0]`. -/
theorem c10_witness :
    (MeanNormalization.fit [[(1 : ℚ), 3], [2, 2]]).scale.getD 1 0 ≠ 0 ∧
    (∃ out, (MeanNormalization.fit [[(1 : ℚ), 3], [2, 2]]).transform
        [[(1 : ℚ), 3], [2, 2]] = Except.ok out ∧
      out.getD 1 [] = List.replicate 2 0) := by
  have h := c10_scale_nonzero [[(1 : ℚ), 3], [2, 2]] 1 (by decide)
  exact ⟨h.1, h.2.2 2 2 (by decide) rfl⟩

/-- C2: after every `ResetParameters()` the Parameter Vector's length
is the sum over the layers, in pipeline order, of their block sizes; a
`Linear` layer with `i` inputs and `o` outputs contributes `i*o + o`, a
stateless activation layer contributes `0`; in particular the 2-layer
scenario `Linear(2→3)` followed by an activation yields length `9`. -/
theorem c2_reset_length (layers : List Layer) (p0 : List ℚ)
    (init : ℕ → ℚ) (i o f : ℕ) :
    (resetParameters init ⟨layers, p0⟩).params.length
        = (layers.map Layer.blockSize).sum
    ∧ (Layer.linear i o).blockSize = i * o + o
    ∧ (Layer.activation f).blockSize = 0
    ∧ (resetParameters init
        ⟨[Layer.linear 2 3, Layer.activation 0], p0⟩).params.length = 9 := by
  refine ⟨?_, rfl, rfl, ?_⟩
  · simp [resetParameters, networkSize]
  · simp [resetParameters, networkSize, Layer.blockSize]

lemma networkSize_cons (l : Layer) (ls : List Layer) :
    networkSize (l :: ls) = l.blockSize + networkSize ls := by
  simp [networkSize]

lemma blockSizeAt_cons_succ (l : Layer) (ls : List Layer) (m : ℕ) :
    blockSizeAt (l :: ls) (m + 1) = blockSizeAt ls m := rfl

lemma layerOffset_add_le (layers : List Layer) (k : ℕ) :
    layerOffset layers k + blockSizeAt layers k ≤ networkSize layers := by
  induction layers generalizing k with
  | nil => cases k <;> simp [layerOffset, blockSizeAt, networkSize]
  | cons l ls ih =>
      cases k with
      | zero =>
          simp [layerOffset, blockSizeAt, networkSize_cons]
      | succ m =>
          have := ih m
          simp only [layerOffset, blockSizeAt_cons_succ, networkSize_cons]
          omega

lemma layerOffset_mono (layers : List Layer) (j k : ℕ) (hjk : j < k) :
    layerOffset layers j + blockSizeAt layers j ≤ layerOffset layers k := by
  induction layers generalizing j k with
  | nil =>
      cases j <;> cases k <;> simp [layerOffset, blockSizeAt] at hjk ⊢
  | cons l ls ih =>
      cases j with
      | zero =>
          obtain ⟨m, rfl⟩ : ∃ m, k = m + 1 :=
            ⟨k - 1, (Nat.succ_pred_eq_of_pos hjk).symm⟩
          simp [layerOffset, blockSizeAt]
      | succ i =>
          obtain ⟨m, rfl⟩ : ∃ m, k = m + 1 :=
            ⟨k - 1, (Nat.succ_pred_eq_of_pos
              (Nat.lt_of_le_of_lt (Nat.zero_le _) hjk)).symm⟩
          have := ih i m (by omega)
          simp only [layerOffset, blockSizeAt_cons_succ]
          omega

lemma slice_replicate_of_le (n off sz : ℕ) (c : ℚ) (h : off + sz ≤ n) :
    slice (List.replicate n c) off sz = List.replicate sz c := by
  unfold slice
  rw [List.drop_replicate, List.take_replicate]
  congr 1
  omega

lemma slice_splice_self (l v : List ℚ) (off : ℕ)
    (hoff : off + v.length ≤ l.length) :
    slice (splice l off v.length v) off v.length = v := by
  have h1 : (l.take off).length = off := by
    rw [List.length_take]
    omega
  unfold splice slice
  rw [List.append_assoc, List.drop_left' h1, List.take_left]

lemma slice_splice_before (l v : List ℚ) (off sz off' sz' : ℕ)
    (hbefore : off' + sz' ≤ off) (hoff : off ≤ l.length) :
    slice (splice l off sz v) off' sz' = slice l off' sz' := by
  have h1 : (l.take off).length = off := by
    rw [List.length_take]
    omega
  unfold splice slice
  rw [List.append_assoc, List.drop_append_eq_append_drop,
    List.take_append_eq_append_take]
  have h2 : ((l.take off).drop off').length = off - off' := by
    simp
    omega
  rw [h2]
  have h3 : sz' - (off - off') = 0 := by omega
  rw [h3, List.take_zero, List.append_nil, List.drop_take, List.take_take]
  congr 1
  omega

lemma slice_splice_after (l v : List ℚ) (off sz off' sz' : ℕ)
    (hafter : off + sz ≤ off') (hv : v.length = sz)
    (hoff : off + sz ≤ l.length) :
    slice (splice l off sz v) off' sz' = slice l off' sz' := by
  have h1 : (l.take off ++ v).length = off + sz := by
    simp [hv]
    omega
  unfold splice slice
  rw [List.drop_append_eq_append_drop]
  have h2 : (l.take off ++ v).drop off' = [] := by
    apply List.drop_eq_nil_of_le
    omega
  rw [h2, List.nil_append, h1, List.drop_drop]
  congr 2
  omega

lemma splice_length (l v : List ℚ) (off sz : ℕ) (hv : v.length = sz)
    (h : off + sz ≤ l.length) : (splice l off sz v).length = l.length := by
  simp [splice, hv]
  omega

lemma reset_params_length (init : ℕ → ℚ) (layers : List Layer)
    (p0 : List ℚ) :
    (resetParameters init ⟨layers, p0⟩).params.length
      = networkSize layers := by
  simp [resetParameters]

/-- C1: after `ResetParameters()` each layer's parameter block aliases
its sub-range of the Parameter Vector: setting the whole vector to ones
makes every layer's view all-ones; writing through one layer's view
replaces exactly its sub-range of the vector (the new vector is the
splice of the old one at that layer's offset) and leaves every other
layer's view unchanged. -/
theorem c1_param_aliasing (layers : List Layer) (init : ℕ → ℚ)
    (p0 : List ℚ) (j : ℕ) (v : List ℚ) (_hj : j < layers.length)
    (hv : v.length = blockSizeAt layers j) :
    (∀ k, k < layers.length →
        layerView (setAllParams (resetParameters init ⟨layers, p0⟩) 1) k
          = List.replicate (blockSizeAt layers k) 1)
    ∧ layerView (writeLayerView (resetParameters init ⟨layers, p0⟩) j v) j = v
    ∧ (writeLayerView (resetParameters init ⟨layers, p0⟩) j v).params
        = splice (resetParameters init ⟨layers, p0⟩).params
            (layerOffset layers j) (blockSizeAt layers j) v
    ∧ (∀ k, k < layers.length → k ≠ j →
        layerView (writeLayerView (resetParameters init ⟨layers, p0⟩) j v) k
          = layerView (resetParameters init ⟨layers, p0⟩) k) := by
  have hlen : (resetParameters init ⟨layers, p0⟩).params.length
      = networkSize layers := reset_params_length init layers p0
  refine ⟨?_, ?_, rfl, ?_⟩
  · intro k hk
    show slice
        (List.replicate (resetParameters init ⟨layers, p0⟩).params.length 1)
        (layerOffset layers k) (blockSizeAt layers k)
      = List.replicate (blockSizeAt layers k) 1
    rw [hlen]
    exact slice_replicate_of_le _ _ _ _ (layerOffset_add_le layers k)
  · show slice (splice (resetParameters init ⟨layers, p0⟩).params
        (layerOffset layers j) (blockSizeAt layers j) v)
        (layerOffset layers j) (blockSizeAt layers j) = v
    rw [← hv]
    apply slice_splice_self
    rw [hv, hlen]
    exact layerOffset_add_le layers j
  · intro k hk hkj
    show slice (splice (resetParameters init ⟨layers, p0⟩).params
        (layerOffset layers j) (blockSizeAt layers j) v)
        (layerOffset layers k) (blockSizeAt layers k)
      = slice (resetParameters init ⟨layers, p0⟩).params
          (layerOffset layers k) (blockSizeAt layers k)
    rcases Nat.lt_or_ge k j with hlt | hge
    · apply slice_splice_before
      · exact layerOffset_mono layers k j hlt
      · rw [hlen]
        have := layerOffset_add_le layers j
        omega
    · have hgt : j < k := by omega
      apply slice_splice_after
      · exact layerOffset_mono layers j k hgt
      · exact hv
      · rw [hlen]
        exact layerOffset_add_le layers j

/-- Witness for C1: the `FFNReturnModel` scenario — `Linear(3,3)` then
`Linear(3,4)`; after reset, setting the vector to ones makes layer 0's
view all-ones, zeroing layer 1's view reads back as zeros, and layer
0's view is untouched by that write. -/
theorem c1_witness :
    layerView (setAllParams (resetParameters (fun _ => 0)
        ⟨[Layer.linear 3 3, Layer.linear 3 4], []⟩) 1) 0
      = List.replicate 12 1
    ∧ layerView (writeLayerView (resetParameters (fun _ => 0)
        ⟨[Layer.linear 3 3, Layer.linear 3 4], []⟩) 1
          (List.replicate 16 0)) 1
      = List.replicate 16 0
    ∧ layerView (writeLayerView (resetParameters (fun _ => 0)
        ⟨[Layer.linear 3 3, Layer.linear 3 4], []⟩) 1
          (List.replicate 16 0)) 0
      = layerView (resetParameters (fun _ => 0)
          ⟨[Layer.linear 3 3, Layer.linear 3 4], []⟩) 0 := by
  have h := c1_param_aliasing [Layer.linear 3 3, Layer.linear 3 4]
    (fun _ => 0) [] 1 (List.replicate 16 0) (by decide) (by decide)
  exact ⟨h.1 0 (by decide), h.2.1, h.2.2.2 0 (by decide) (by decide)⟩

lemma string_data_append (a b : String) :
    (a ++ b).data = a.data ++ b.data := rfl

lemma message_containsSeg (e : ShapeError) :
    containsSeg e.message (toString e.expected)
    ∧ containsSeg e.message (toString e.actual) := by
  unfold ShapeError.message containsSeg
  constructor
  · refine ⟨(("FFN<>::Train(): the first layer of the network expects "
        : String)).data,
      ((" elements, but the input has " : String) ++ toString e.actual
        ++ (" dimensions! " : String)).data, ?_⟩
    simp only [string_data_append, List.append_assoc]
  · refine ⟨(("FFN<>::Train(): the first layer of the network expects "
        : String) ++ toString e.expected
        ++ (" elements, but the input has " : String)).data,
      ((" dimensions! " : String)).data, ?_⟩
    simp only [string_data_append, List.append_assoc]

/-- C3: whenever the first layer declares input width `w` and the
predictor matrix has `r ≠ w` rows, `Train` returns the `ShapeError`
carrying the expected and actual dimensions — for every optimizer, so
the optimizer is never consulted — and the error's message contains
both dimensions. -/
theorem c3_train_shape_error (Φ : ℕ → ℚ → ℚ) (lossP : LossPolicy)
    (init : ℕ → ℚ) (net : FFN) (x y : ColMat) (opt : Optimizer) (w : ℕ)
    (hw : firstWidth net = some w) (hr : nRows x ≠ w) :
    train Φ lossP init net x y opt = Except.error ⟨w, nRows x⟩
    ∧ containsSeg (ShapeError.message ⟨w, nRows x⟩) (toString w)
    ∧ containsSeg (ShapeError.message ⟨w, nRows x⟩) (toString (nRows x)) := by
  refine ⟨?_, (message_containsSeg ⟨w, nRows x⟩).1,
    (message_containsSeg ⟨w, nRows x⟩).2⟩
  unfold train
  rw [hw]
  simp [hr]

/-- Witness for C3: a pipeline whose first layer expects 10 elements,
fed a 7-row input, raises the ShapeError mentioning both 10 and 7. -/
theorem c3_witness :
    train idActivation sumSqLoss (fun _ => 0)
        ⟨[Layer.linear 10 8, Layer.activation 0, Layer.linear 8 3,
          Layer.activation 1], []⟩
        [List.replicate 7 1] [] evalOnceOpt
      = Except.error ⟨10, 7⟩
    ∧ containsSeg (ShapeError.message ⟨10, 7⟩) (toString 10)
    ∧ containsSeg (ShapeError.message ⟨10, 7⟩) (toString 7) := by
  have h := c3_train_shape_error idActivation sumSqLoss (fun _ => 0)
    ⟨[Layer.linear 10 8, Layer.activation 0, Layer.linear 8 3,
      Layer.activation 1], []⟩
    [List.replicate 7 1] [] evalOnceOpt 10 (by decide) (by decide)
  exact h

lemma decode_encode (l : Layer) : decodeLayer (encodeLayer l) = some l := by
  cases l <;> rfl

lemma decodeLayers_encode (ls : List Layer) :
    decodeLayers (ls.map encodeLayer) = some ls := by
  induction ls with
  | nil => rfl
  | cons l ls ih => simp [decodeLayers, decode_encode, ih]

/-- C6: deserializing the serialization of a trained pipeline into any
target pipeline — including a non-empty one, whose previous contents
are discarded — reproduces the pipeline exactly: identical predictions
on every input and a bit-for-bit identical Parameter Vector. -/
theorem c6_serialization_roundtrip (Φ : ℕ → ℚ → ℚ) (P Q : FFN)
    (x : ColMat) :
    deserializeFFN (serializeFFN P) Q = some P
    ∧ (deserializeFFN (serializeFFN P) Q).map (fun n => predict Φ n x)
        = some (predict Φ P x)
    ∧ (deserializeFFN (serializeFFN P) Q).map FFN.params = some P.params := by
  have h : deserializeFFN (serializeFFN P) Q = some P := by
    unfold deserializeFFN serializeFFN
    rw [decodeLayers_encode]
    rfl
  exact ⟨h, by rw [h]; rfl, by rw [h]; rfl⟩

lemma zipWith_replicate_same (f : ℚ → ℚ → ℚ) (n : ℕ) (a b : ℚ) :
    List.zipWith f (List.replicate n a) (List.replicate n b)
      = List.replicate n (f a b) := by
  induction n with
  | zero => rfl
  | succ m ih => simp [List.replicate_succ, ih]

lemma rangedNet_len :
    (writeLayerView (resetParameters (fun _ => 0)
      ⟨[Layer.linear 5 10, Layer.add 10, Layer.linearNoBias 10 10,
        Layer.linear 10 10], []⟩) 1 (List.replicate 10 1)).params.length
      = 280 := by
  show (splice _ 60 10 _).length = 280
  rw [splice_length]
  · rw [reset_params_length]
    decide
  · rfl
  · rw [reset_params_length]
    decide

lemma rangedNet_view2 : layerView rangedNet 2 = List.replicate 100 1 := by
  show slice (splice (writeLayerView (resetParameters (fun _ => 0)
      ⟨[Layer.linear 5 10, Layer.add 10, Layer.linearNoBias 10 10,
        Layer.linear 10 10], []⟩) 1 (List.replicate 10 1)).params
      70 (List.replicate 100 (1 : ℚ)).length (List.replicate 100 1)) 70
        (List.replicate 100 (1 : ℚ)).length = List.replicate 100 1
  apply slice_splice_self
  rw [rangedNet_len]
  decide

lemma rangedNet_view1 : layerView rangedNet 1 = List.replicate 10 1 := by
  show slice (splice (writeLayerView (resetParameters (fun _ => 0)
      ⟨[Layer.linear 5 10, Layer.add 10, Layer.linearNoBias 10 10,
        Layer.linear 10 10], []⟩) 1 (List.replicate 10 1)).params
      70 100 (List.replicate 100 1)) 60 10 = List.replicate 10 1
  rw [slice_splice_before _ _ 70 100 60 10 (by omega)
    (by rw [rangedNet_len]; omega)]
  show slice (splice (resetParameters (fun _ => 0)
      ⟨[Layer.linear 5 10, Layer.add 10, Layer.linearNoBias 10 10,
        Layer.linear 10 10], []⟩).params
      60 (List.replicate 10 (1 : ℚ)).length (List.replicate 10 1)) 60
        (List.replicate 10 (1 : ℚ)).length = List.replicate 10 1
  apply slice_splice_self
  rw [reset_params_length]
  decide

/-- C7: ranged `Forward` uses zero-based, both-ends-inclusive indices
with `startLayer == endLayer` valid: on the `PartialForwardTest`
pipeline, `Forward(ones(10×1), out, 1, 1)` through the ones-initialised
`Add` module yields all 2's, and `Forward(ones(10×1), out, 1, 2)`
continuing through the all-ones bias-free 10×10 linear layer yields
all 20's. -/
theorem c7_ranged_forward :
    forwardRange idActivation rangedNet 1 1 [List.replicate 10 1]
      = [List.replicate 10 2]
    ∧ forwardRange idActivation rangedNet 1 2 [List.replicate 10 1]
      = [List.replicate 10 20] := by
  have hget1 : rangedNet.layers[1]? = some (Layer.add 10) := rfl
  have hget2 : rangedNet.layers[2]? = some (Layer.linearNoBias 10 10) := rfl
  constructor
  · unfold forwardRange
    norm_num [List.range_succ, hget1, Layer.forward, rangedNet_view1,
      zipWith_replicate_same]
  · unfold forwardRange
    norm_num [List.range_succ, hget1, hget2, Layer.forward, rangedNet_view1,
      rangedNet_view2, zipWith_replicate_same, matVecFlat,
      List.getD_eq_getElem?_getD, List.getElem?_replicate]
    rfl

/-- C8: when the input shape matches the first layer's declared width
(and parameters are allocated), `Train` hands the network objective to
the optimizer and returns the optimizer's final parameters and last
observed objective value exactly as reported — no clamping or
post-processing of the scalar objective. -/
theorem c8_train_returns_objective (Φ : ℕ → ℚ → ℚ) (lossP : LossPolicy)
    (init : ℕ → ℚ) (net : FFN) (x y : ColMat) (opt : Optimizer) (w : ℕ)
    (hw : firstWidth net = some w) (hx : nRows x = w)
    (hp : net.params.length = networkSize net.layers) :
    train Φ lossP init net x y opt
      = Except.ok (opt (networkObjective Φ lossP net x y) net.params) := by
  unfold train
  rw [hw]
  simp [hx, hp]

/-- Witness for C8: a concrete well-posed 1-layer regression problem;
`Train` returns the finite objective value 4 produced by the
optimizer's evaluation. -/
theorem c8_witness :
    train idActivation sumSqLoss (fun _ => 0)
        ⟨[Layer.linear 2 1], [1, 1, 0]⟩ [[1, 1]] [[0]] evalOnceOpt
      = Except.ok ([1, 1, 0], 4) := by
  have h := c8_train_returns_objective idActivation sumSqLoss (fun _ => 0)
    ⟨[Layer.linear 2 1], [1, 1, 0]⟩ [[1, 1]] [[0]] evalOnceOpt 2
    rfl (by decide) (by decide)
  rw [h]
  norm_num [evalOnceOpt, networkObjective, sumSqLoss, dotProd, forwardFull,
    forwardRange, layerView, slice, blockSizeAt, layerOffset, Layer.forward,
    Layer.blockSize, matVecFlat, List.range_succ,
    List.getD_eq_getElem?_getD]

lemma arenaLookup_mem {l : List (ℕ × List ℚ)} {i : ℕ} {v : List ℚ}
    (h : arenaLookup i l = some v) : (i, v) ∈ l := by
  induction l with
  | nil => simp [arenaLookup] at h
  | cons p ps ih =>
      obtain ⟨p1, p2⟩ := p
      by_cases hp : p1 = i
      · rw [arenaLookup, if_pos hp] at h
        obtain rfl : p2 = v := by injection h
        obtain rfl : p1 = i := hp
        exact List.mem_cons_self _ _
      · rw [arenaLookup, if_neg hp] at h
        exact List.mem_cons_of_mem _ (ih h)

lemma arenaLookup_update_ne (l : List (ℕ × List ℚ)) (i j : ℕ) (v : List ℚ)
    (h : j ≠ i) : arenaLookup j (arenaUpdate i v l) = arenaLookup j l := by
  induction l with
  | nil => rfl
  | cons p ps ih =>
      by_cases hp : p.1 = i
      · rw [arenaUpdate, if_pos hp, arenaLookup,
          if_neg (fun hji => h hji.symm), ih, arenaLookup,
          if_neg (fun hpj => h (hp ▸ hpj).symm)]
      · rw [arenaUpdate, if_neg hp, arenaLookup, arenaLookup]
        by_cases hpj : p.1 = j
        · rw [if_pos hpj, if_pos hpj]
        · rw [if_neg hpj, if_neg hpj, ih]

lemma arenaLookup_erase_ne (l : List (ℕ × List ℚ)) (i j : ℕ)
    (h : j ≠ i) : arenaLookup j (arenaErase i l) = arenaLookup j l := by
  induction l with
  | nil => rfl
  | cons p ps ih =>
      by_cases hp : p.1 = i
      · rw [arenaErase, if_pos hp, ih, arenaLookup,
          if_neg (fun hpj => h (hp ▸ hpj).symm)]
      · rw [arenaErase, if_neg hp, arenaLookup, arenaLookup]
        by_cases hpj : p.1 = j
        · rw [if_pos hpj, if_pos hpj]
        · rw [if_neg hpj, if_neg hpj, ih]

/-- C4: a copy of a pipeline whose Parameter Vector lives in arena `a`
predicts exactly like the source immediately after the copy, yet shares
no parameter storage with it: the clone's arena is a different one,
overwriting the clone's Parameter Vector leaves the source's
predictions unchanged, and destroying the source entirely leaves the
clone's predictions unchanged. -/
theorem c4_copy_independence (Φ : ℕ → ℚ → ℚ) (st : Store) (net : FFNRef)
    (x : ColMat) (a : ℕ) (v : List ℚ) (hwf : st.wf)
    (ha : net.arena = some a) (hv : arenaLookup a st.arenas = some v) :
    predictRef Φ (copyFFN st net).1 (copyFFN st net).2 x
        = predictRef Φ st net x
    ∧ (copyFFN st net).2.arena ≠ net.arena
    ∧ (∀ p', predictRef Φ (writeParamsRef (copyFFN st net).1
          (copyFFN st net).2 p') net x = predictRef Φ st net x)
    ∧ predictRef Φ (destroyFFN (copyFFN st net).1 net) (copyFFN st net).2 x
        = predictRef Φ st net x := by
  have halt : a < st.next := hwf (a, v) (arenaLookup_mem hv)
  have hne : a ≠ st.next := by omega
  have hne' : st.next ≠ a := by omega
  have hbind : net.arena.bind (fun b => arenaLookup b st.arenas) = some v := by
    rw [ha]
    exact hv
  have hc : copyFFN st net
      = (⟨(st.next, v) :: st.arenas, st.next + 1⟩,
        ⟨net.layers, some st.next⟩) := by
    unfold copyFFN
    rw [hbind]
  have hpred : predictRef Φ st net x
      = some (forwardFull Φ ⟨net.layers, v⟩ x) := by
    unfold predictRef
    rw [hbind]
    rfl
  refine ⟨?_, ?_, ?_, ?_⟩
  · rw [hc, hpred]
    unfold predictRef
    simp [arenaLookup]
  · rw [hc, ha]
    simp
    omega
  · intro p'
    rw [hc, hpred]
    show predictRef Φ
      ⟨arenaUpdate st.next p' ((st.next, v) :: st.arenas), st.next + 1⟩
      net x = _
    unfold predictRef
    rw [ha]
    show (arenaLookup a
        (arenaUpdate st.next p' ((st.next, v) :: st.arenas))).map _ = _
    rw [arenaLookup_update_ne _ _ _ _ hne, arenaLookup, if_neg hne', hv]
    rfl
  · rw [hc, hpred]
    have hd : destroyFFN
        (⟨(st.next, v) :: st.arenas, st.next + 1⟩ : Store) net
        = ⟨arenaErase a ((st.next, v) :: st.arenas), st.next + 1⟩ := by
      unfold destroyFFN
      rw [ha]
    rw [hd]
    unfold predictRef
    show (arenaLookup st.next
        (arenaErase a ((st.next, v) :: st.arenas))).map _ = _
    rw [arenaLookup_erase_ne _ _ _ hne', arenaLookup, if_pos rfl]
    rfl

/-- Witness for C4: copying a one-layer pipeline whose parameters live
in arena 0 of a one-arena store; the copy predicts identically and owns
a different arena. -/
theorem c4_witness :
    predictRef idActivation
        (copyFFN ⟨[(0, [5])], 1⟩ ⟨[Layer.add 1], some 0⟩).1
        (copyFFN ⟨[(0, [5])], 1⟩ ⟨[Layer.add 1], some 0⟩).2 [[1]]
      = predictRef idActivation ⟨[(0, [5])], 1⟩ ⟨[Layer.add 1], some 0⟩ [[1]]
    ∧ (copyFFN ⟨[(0, [5])], 1⟩ ⟨[Layer.add 1], some 0⟩).2.arena
        ≠ some 0 := by
  have h := c4_copy_independence idActivation ⟨[(0, [5])], 1⟩
    ⟨[Layer.add 1], some 0⟩ [[1]] 0 [5]
    (by intro p hp; simp at hp; simp [hp]) rfl rfl
  exact ⟨h.1, h.2.1⟩

/-- C5: after a move, the receiving pipeline predicts exactly what the
source predicted before the move — still after the moved-from object is
destroyed, which frees nothing because ownership was transferred — and
the moved-from pipeline is left empty (no layers, no Parameter Vector)
and unusable (its `Predict` yields nothing). -/
theorem c5_move_transfer (Φ : ℕ → ℚ → ℚ) (st : Store) (net : FFNRef)
    (x : ColMat) :
    predictRef Φ st (moveFFN net).1 x = predictRef Φ st net x
    ∧ predictRef Φ (destroyFFN st (moveFFN net).2) (moveFFN net).1 x
        = predictRef Φ st net x
    ∧ (moveFFN net).2.layers = []
    ∧ (moveFFN net).2.arena = none
    ∧ predictRef Φ st (moveFFN net).2 x = none :=
  ⟨rfl, rfl, rfl, rfl, rfl⟩

end MlpackSpec
